import Mathlib

set_option maxHeartbeats 1000000

/-! Verification of the system-monitor script (`src/discord.py`): a shallow
embedding of its byte formatter `human_readable`, the presence-variant pool
`get_presence_variants`, the payload selection of `update_discord_presence`,
the throttled `main` loop, and the startup dependency check. Numeric values
are modelled as exact rationals; Python's fixed-point rendering (`:.1f`,
`:.0f`) is modelled by round-half-to-even, the rounding `format` applies. -/

/-- Round-half-to-even of a rational to an integer: the rounding Python's
fixed-point format specs apply. `f` is the floor of `q`; the fractional part
`(num - f*den)/den` is compared with `1/2` by comparing `2*(num - f*den)`
with `den`. -/
def roundHalfEven (q : ℚ) : ℤ :=
  let n := q.num
  let d := (q.den : ℤ)
  let f := Int.fdiv n d
  let r2 := 2 * (n - f * d)
  if r2 < d then f
  else if d < r2 then f + 1
  else if f % 2 = 0 then f else f + 1

/-- Python `f"{q:.1f}"`: exactly one digit after the decimal point. -/
def formatFixed1 (q : ℚ) : String :=
  let n := roundHalfEven (q * 10)
  (if n < 0 then "-" else "") ++ toString (n.natAbs / 10) ++ "." ++ toString (n.natAbs % 10)

/-- Python `f"{q:.0f}"`: no digits after the decimal point. -/
def formatFixed0 (q : ℚ) : String :=
  let n := roundHalfEven q
  (if n < 0 then "-" else "") ++ toString n.natAbs

/-- The unit list `["", "K", "M", "G", "T", "P"]` that `human_readable`
iterates over. -/
def hrUnits : List String := ["", "K", "M", "G", "T", "P"]

/-- The `for unit in [...]` loop of `human_readable` (source lines 170-174):
stop at the first unit where `abs(num) < 1024.0`, else divide by `1024.0`
and move to the next unit; after the last unit fall through to
`f"{num:.1f} P{suffix}"`. -/
def hrLoop (suffix : String) : List String → ℚ → String
  | [], num => formatFixed1 num ++ " P" ++ suffix
  | u :: rest, num =>
      if |num| < 1024 then formatFixed1 num ++ " " ++ u ++ suffix
      else hrLoop suffix rest (num / 1024)

/-- `human_readable(num, suffix)` of the source, for a present (non-`None`)
numeric value. -/
def human_readable (num : ℚ) (suffix : String) : String :=
  hrLoop suffix hrUnits num

/-- `human_readable` including its `if num is None: return "N/A"` branch. -/
def human_readable_opt (num : Option ℚ) (suffix : String) : String :=
  match num with
  | none => "N/A"
  | some q => human_readable q suffix

/-- The frequency dict `get_cpu_usage` builds when `psutil.cpu_freq()` gives
data. -/
structure CpuFreq where
  current : ℚ
  min : ℚ
  max : ℚ

/-- The dict returned by `get_cpu_usage`: overall percent, per-core
percents, optional frequency info. -/
structure CpuData where
  overall : ℚ
  cores : List ℚ
  frequency : Option CpuFreq

/-- The dict returned by `get_memory_usage`; the three `swap_*` keys are
added together exactly when total swap is positive, modelled as optional
fields read back with default `0` (Python `dict.get(key, 0)`). -/
structure MemData where
  total : ℚ
  used : ℚ
  percent : ℚ
  available : ℚ
  swap_total : Option ℚ
  swap_used : Option ℚ
  swap_percent : Option ℚ

/-- The dict returned by `get_disk_io` (the optional `read_time` and
`write_time` keys are never read by the presence code). -/
structure DiskData where
  read : ℚ
  write : ℚ
  read_count : ℚ
  write_count : ℚ
  read_time : Option ℚ
  write_time : Option ℚ

/-- The dict returned by `get_network_io`. -/
structure NetData where
  sent : ℚ
  recv : ℚ
  packets_sent : ℚ
  packets_recv : ℚ
  errors_in : ℚ
  errors_out : ℚ
  drops_in : ℚ
  drops_out : ℚ

/-- `os_suffix` as computed at the top of `get_presence_variants`:
`f" | {OS_NAME}" if show_os else ""`. `os_name` stands for the module-level
`OS_NAME`, which depends on the platform. -/
def os_suffix_of (show_os : Bool) (os_name : String) : String :=
  if show_os then " | " ++ os_name else ""

/-- The CPU & RAM variant, appended to the pool unconditionally. -/
def cpu_ram_variant (cpu : CpuData) (mem : MemData) (os_suffix : String) :
    String × String :=
  ("CPU: " ++ formatFixed1 cpu.overall ++ "%" ++ os_suffix,
   "RAM: " ++ formatFixed1 mem.percent ++ "% (" ++ human_readable mem.used "B" ++ "/" ++
     human_readable mem.total "B" ++ ")")

/-- The Disk & Net variant, appended when disk and net data are both
present. -/
def disk_net_variant (disk : DiskData) (net : NetData) (os_suffix : String) :
    String × String :=
  ("Disk R/W: " ++ human_readable disk.read "B" ++ "/" ++ human_readable disk.write "B" ++
     os_suffix,
   "Net S/R: " ++ human_readable net.sent "B" ++ "/" ++ human_readable net.recv "B")

/-- The CPU & Disk variant, appended when disk data is present. -/
def cpu_disk_variant (cpu : CpuData) (disk : DiskData) (os_suffix : String) :
    String × String :=
  ("CPU: " ++ formatFixed1 cpu.overall ++ "%" ++ os_suffix,
   "Disk R/W: " ++ human_readable disk.read "B" ++ "/" ++ human_readable disk.write "B")

/-- The RAM & Net variant, appended when net data is present. -/
def ram_net_variant (mem : MemData) (net : NetData) (os_suffix : String) :
    String × String :=
  ("RAM: " ++ formatFixed1 mem.percent ++ "% (" ++ human_readable mem.used "B" ++ "/" ++
     human_readable mem.total "B" ++ ")" ++ os_suffix,
   "Net S/R: " ++ human_readable net.sent "B" ++ "/" ++ human_readable net.recv "B")

/-- The CPU-frequency variant, appended when frequency data is present and
`show_os` is set; note its subtitle shows `OS_NAME` directly, not
`os_suffix`. -/
def freq_variant_pair (os_name : String) (cpu : CpuData) (mem : MemData) (freq : CpuFreq) :
    String × String :=
  ("CPU: " ++ formatFixed1 cpu.overall ++ "% @ " ++ formatFixed0 freq.current ++ "MHz",
   "RAM: " ++ formatFixed1 mem.percent ++ "% | " ++ os_name)

/-- The swap variant, appended when `swap_total > 0` and `swap_percent > 5`
(both read with `dict.get(key, 0)`). -/
def swap_variant_pair (mem : MemData) (os_suffix : String) : String × String :=
  ("RAM: " ++ formatFixed1 mem.percent ++ "% | Swap: " ++
     formatFixed1 (mem.swap_percent.getD 0) ++ "%" ++ os_suffix,
   "Physical: " ++ human_readable mem.used "B" ++ "/" ++ human_readable mem.total "B")

/-- `get_presence_variants(cpu, mem, disk, net, show_os)` (source lines
176-223): the ordered candidate pool. -/
def get_presence_variants (os_name : String) (cpu : CpuData) (mem : MemData)
    (disk : Option DiskData) (net : Option NetData) (show_os : Bool) :
    List (String × String) :=
  let os_suffix := os_suffix_of show_os os_name
  [cpu_ram_variant cpu mem os_suffix]
    ++ (match disk, net with
        | some d, some n => [disk_net_variant d n os_suffix]
        | _, _ => [])
    ++ (match disk with
        | some d => [cpu_disk_variant cpu d os_suffix]
        | none => [])
    ++ (match net with
        | some n => [ram_net_variant mem n os_suffix]
        | none => [])
    ++ (match cpu.frequency with
        | some f => if show_os then [freq_variant_pair os_name cpu mem f] else []
        | none => [])
    ++ (if 0 < mem.swap_total.getD 0 ∧ 5 < mem.swap_percent.getD 0 then
          [swap_variant_pair mem os_suffix]
        else [])

/-- The frequency-based variant as an optional value: `some` exactly when
the snapshot carries frequency data. -/
def freq_variant (os_name : String) (cpu : CpuData) (mem : MemData) :
    Option (String × String) :=
  cpu.frequency.map (freq_variant_pair os_name cpu mem)

/-- The payload selection of `update_discord_presence` (source lines
259-264) with a connected client: build the pool, return early when it is
empty, otherwise pick one entry — `random.choice` modelled by an injected
index `choice` reduced modulo the pool size. -/
def update_presence_payload (os_name : String) (cpu : CpuData) (mem : MemData)
    (disk : Option DiskData) (net : Option NetData) (show_os : Bool) (choice : ℕ) :
    Option (String × String) :=
  let variants := get_presence_variants os_name cpu mem disk net show_os
  if variants.isEmpty then none
  else variants.get? (choice % variants.length)

/-- The effect of `update_discord_presence`'s `except` branch (source lines
284-286) on the global `RPC` handle: a raising send sets it back to `None`
(disconnected); the exception is swallowed and the call returns normally. -/
def update_rpc_after_send (rpc : Bool) (send_fails : Bool) : Bool :=
  if send_fails then false else rpc

/-- The mutable state of `main`'s loop: whether `RPC` is a connected handle,
and `last_rpc_update_time`. -/
structure LoopState where
  rpc : Bool
  last_rpc_update_time : ℚ

/-- One loop iteration's environment: the tick's `time.time()`, whether the
cpu and mem samples are truthy, whether a reconnect attempt would succeed
this tick, and whether `RPC.update` would raise. -/
structure TickInput where
  time : ℚ
  cpu_ok : Bool
  mem_ok : Bool
  connect_ok : Bool
  send_fails : Bool

/-- The publish guard of `main` (source lines 365-366): `RPC` — after the
reconnect attempt of line 362-363 — is connected, the configured interval
has elapsed since `last_rpc_update_time`, and cpu and mem samples are both
present. -/
def tick_guard (interval : ℚ) (s : LoopState) (inp : TickInput) : Bool :=
  (s.rpc || inp.connect_ok) && decide (interval ≤ inp.time - s.last_rpc_update_time) &&
    inp.cpu_ok && inp.mem_ok

/-- One iteration of the `while True` loop of `main` (source lines 355-376):
if `RPC is None`, attempt a reconnect; if connected with the interval
elapsed and cpu and mem present, forward one presence update — which may
raise, disconnecting the handle — and set `last_rpc_update_time` to this
tick's time. Returns the new state and whether a send was forwarded (with
cpu and mem present the pool is never empty, so reaching the update call
always forwards a send). -/
def tick (interval : ℚ) (s : LoopState) (inp : TickInput) : LoopState × Bool :=
  if tick_guard interval s inp then
    ({ rpc := update_rpc_after_send (s.rpc || inp.connect_ok) inp.send_fails,
       last_rpc_update_time := inp.time }, true)
  else
    ({ rpc := s.rpc || inp.connect_ok, last_rpc_update_time := s.last_rpc_update_time }, false)

/-- The timestamps of the ticks on which a run of the loop forwards a send,
in order. -/
def runPublishes (interval : ℚ) : LoopState → List TickInput → List ℚ
  | _, [] => []
  | s, inp :: rest =>
      let r := tick interval s inp
      if r.2 then inp.time :: runPublishes interval r.1 rest
      else runPublishes interval r.1 rest

/-- `check_dependencies()` (source lines 299-326): true when both required
libraries are importable. -/
def check_dependencies (psutil_ok pypresence_ok : Bool) : Bool :=
  psutil_ok && pypresence_ok

/-- The process exit status as a function of startup library availability: a
missing `psutil` aborts the module-level import with an unhandled error
(status 1); with `psutil` present but `check_dependencies` failing, `main`
calls `sys.exit(1)`; in every other case the run ends by interrupt or
return, through the `finally` cleanup, with status 0. -/
def process_exit_status (psutil_ok pypresence_ok : Bool) : ℕ :=
  if psutil_ok = false then 1
  else if check_dependencies psutil_ok pypresence_ok = false then 1
  else 0

theorem string_data_append (s t : String) : (s ++ t).data = s.data ++ t.data := by
  cases s
  cases t
  rfl

theorem string_head_append (s t : String) (c : Char) (h : s.data.head? = some c) :
    (s ++ t).data.head? = some c := by
  cases s with
  | mk l =>
    cases t with
    | mk m =>
      cases l with
      | nil => simp [List.head?] at h
      | cons a as => simpa [String.append, List.head?] using h

theorem pair_ne_of_fst_head {p q : String × String} {c d : Char}
    (hp : p.1.data.head? = some c) (hq : q.1.data.head? = some d) (hcd : c ≠ d) : p ≠ q := by
  intro e
  subst e
  rw [hp] at hq
  exact hcd (Option.some.inj hq)

theorem pair_ne_of_snd_head {p q : String × String} {c d : Char}
    (hp : p.2.data.head? = some c) (hq : q.2.data.head? = some d) (hcd : c ≠ d) : p ≠ q := by
  intro e
  subst e
  rw [hp] at hq
  exact hcd (Option.some.inj hq)

theorem cpu_ram_fst_head (cpu : CpuData) (mem : MemData) (sfx : String) :
    (cpu_ram_variant cpu mem sfx).1.data.head? = some 'C' := by
  unfold cpu_ram_variant
  repeat apply string_head_append
  rfl

theorem cpu_ram_snd_head (cpu : CpuData) (mem : MemData) (sfx : String) :
    (cpu_ram_variant cpu mem sfx).2.data.head? = some 'R' := by
  unfold cpu_ram_variant
  repeat apply string_head_append
  rfl

theorem disk_net_fst_head (d : DiskData) (n : NetData) (sfx : String) :
    (disk_net_variant d n sfx).1.data.head? = some 'D' := by
  unfold disk_net_variant
  repeat apply string_head_append
  rfl

theorem disk_net_snd_head (d : DiskData) (n : NetData) (sfx : String) :
    (disk_net_variant d n sfx).2.data.head? = some 'N' := by
  unfold disk_net_variant
  repeat apply string_head_append
  rfl

theorem cpu_disk_fst_head (cpu : CpuData) (d : DiskData) (sfx : String) :
    (cpu_disk_variant cpu d sfx).1.data.head? = some 'C' := by
  unfold cpu_disk_variant
  repeat apply string_head_append
  rfl

theorem cpu_disk_snd_head (cpu : CpuData) (d : DiskData) (sfx : String) :
    (cpu_disk_variant cpu d sfx).2.data.head? = some 'D' := by
  unfold cpu_disk_variant
  repeat apply string_head_append
  rfl

theorem ram_net_fst_head (mem : MemData) (n : NetData) (sfx : String) :
    (ram_net_variant mem n sfx).1.data.head? = some 'R' := by
  unfold ram_net_variant
  repeat apply string_head_append
  rfl

theorem ram_net_snd_head (mem : MemData) (n : NetData) (sfx : String) :
    (ram_net_variant mem n sfx).2.data.head? = some 'N' := by
  unfold ram_net_variant
  repeat apply string_head_append
  rfl

theorem freq_pair_fst_head (os_name : String) (cpu : CpuData) (mem : MemData) (f : CpuFreq) :
    (freq_variant_pair os_name cpu mem f).1.data.head? = some 'C' := by
  unfold freq_variant_pair
  repeat apply string_head_append
  rfl

theorem freq_pair_snd_head (os_name : String) (cpu : CpuData) (mem : MemData) (f : CpuFreq) :
    (freq_variant_pair os_name cpu mem f).2.data.head? = some 'R' := by
  unfold freq_variant_pair
  repeat apply string_head_append
  rfl

theorem swap_pair_fst_head (mem : MemData) (sfx : String) :
    (swap_variant_pair mem sfx).1.data.head? = some 'R' := by
  unfold swap_variant_pair
  repeat apply string_head_append
  rfl

theorem swap_pair_snd_head (mem : MemData) (sfx : String) :
    (swap_variant_pair mem sfx).2.data.head? = some 'P' := by
  unfold swap_variant_pair
  repeat apply string_head_append
  rfl

theorem qdiv_pow_lt_iff (b j : ℕ) : (b : ℚ) / 1024 ^ j < 1024 ↔ b < 1024 ^ (j + 1) := by
  rw [div_lt_iff₀ (by positivity)]
  rw [show ((1024 : ℚ) * 1024 ^ j) = ((1024 ^ (j + 1) : ℕ) : ℚ) by push_cast [pow_succ]; ring]
  exact Nat.cast_lt

theorem hrLoop_step_pow (suffix u : String) (rest : List String) (b j : ℕ)
    (h : ¬ b < 1024 ^ (j + 1)) :
    hrLoop suffix (u :: rest) ((b : ℚ) / 1024 ^ j) = hrLoop suffix rest ((b : ℚ) / 1024 ^ (j + 1)) := by
  have habs : ¬ |(b : ℚ) / 1024 ^ j| < 1024 := by
    rw [abs_of_nonneg (by positivity), qdiv_pow_lt_iff]
    exact h
  simp only [hrLoop, if_neg habs]
  rw [div_div, ← pow_succ]

theorem hrLoop_stop_pow (suffix u : String) (rest : List String) (b j : ℕ)
    (h : b < 1024 ^ (j + 1)) :
    hrLoop suffix (u :: rest) ((b : ℚ) / 1024 ^ j)
      = formatFixed1 ((b : ℚ) / 1024 ^ j) ++ " " ++ u ++ suffix := by
  have habs : |(b : ℚ) / 1024 ^ j| < 1024 := by
    rw [abs_of_nonneg (by positivity), qdiv_pow_lt_iff]
    exact h
  simp only [hrLoop, if_pos habs]

theorem spec_index_eq (b i k : ℕ) (hi : b < 1024 ^ (i + 1))
    (hmin : ∀ j : ℕ, b < 1024 ^ (j + 1) → i ≤ j)
    (hlow : k = 0 ∨ 1024 ^ k ≤ b) (hup : b < 1024 ^ (k + 1)) : i = k := by
  have h1 : i ≤ k := hmin k hup
  rcases hlow with rfl | hlow
  · omega
  · by_contra hne
    have h2 : i + 1 ≤ k := by omega
    have h3 : (1024 : ℕ) ^ (i + 1) ≤ 1024 ^ k := Nat.pow_le_pow_right (by norm_num) h2
    omega

theorem human_readable_start (b : ℕ) (suffix : String) :
    human_readable (b : ℚ) suffix = hrLoop suffix hrUnits ((b : ℚ) / 1024 ^ 0) := by
  rw [human_readable, pow_zero, div_one]

/-- Claim C2 (amended): for every byte count `b`, with `i` the smallest
index such that `b / 1024 ^ i < 1024`, the formatter outputs the magnitude
`b / 1024 ^ min i 6` — the source divides at most six times, so beyond
`1024 ^ 7` the shown magnitude is `b / 1024 ^ 6`, not `b / 1024 ^ i` —
rendered with exactly one decimal digit, followed by the `i`-th unit of
`{none, K, M, G, T, P}`, with `P` kept for every `i ≥ 6`. -/
theorem human_readable_spec (b i : ℕ)
    (hlt : (b : ℚ) / 1024 ^ i < 1024)
    (hmin : ∀ j : ℕ, (b : ℚ) / 1024 ^ j < 1024 → i ≤ j) :
    human_readable (b : ℚ) "B"
      = formatFixed1 ((b : ℚ) / 1024 ^ (min i 6)) ++ " " ++ hrUnits.getD i "P" ++ "B" := by
  have hi : b < 1024 ^ (i + 1) := (qdiv_pow_lt_iff b i).mp hlt
  have hmin' : ∀ j : ℕ, b < 1024 ^ (j + 1) → i ≤ j := fun j hj =>
    hmin j ((qdiv_pow_lt_iff b j).mpr hj)
  rw [human_readable_start]
  simp only [hrUnits]
  by_cases h0 : b < 1024 ^ 1
  · have hik : i = 0 := spec_index_eq b i 0 hi hmin' (Or.inl rfl) h0
    subst hik
    rw [hrLoop_stop_pow "B" "" ["K", "M", "G", "T", "P"] b 0 h0]
    norm_num
  by_cases h1 : b < 1024 ^ 2
  · have hik : i = 1 := spec_index_eq b i 1 hi hmin' (Or.inr (Nat.le_of_not_lt h0)) h1
    subst hik
    rw [hrLoop_step_pow "B" "" ["K", "M", "G", "T", "P"] b 0 h0,
        hrLoop_stop_pow "B" "K" ["M", "G", "T", "P"] b 1 h1]
    norm_num
  by_cases h2 : b < 1024 ^ 3
  · have hik : i = 2 := spec_index_eq b i 2 hi hmin' (Or.inr (Nat.le_of_not_lt h1)) h2
    subst hik
    rw [hrLoop_step_pow "B" "" ["K", "M", "G", "T", "P"] b 0 h0,
        hrLoop_step_pow "B" "K" ["M", "G", "T", "P"] b 1 h1,
        hrLoop_stop_pow "B" "M" ["G", "T", "P"] b 2 h2]
    norm_num
  by_cases h3 : b < 1024 ^ 4
  · have hik : i = 3 := spec_index_eq b i 3 hi hmin' (Or.inr (Nat.le_of_not_lt h2)) h3
    subst hik
    rw [hrLoop_step_pow "B" "" ["K", "M", "G", "T", "P"] b 0 h0,
        hrLoop_step_pow "B" "K" ["M", "G", "T", "P"] b 1 h1,
        hrLoop_step_pow "B" "M" ["G", "T", "P"] b 2 h2,
        hrLoop_stop_pow "B" "G" ["T", "P"] b 3 h3]
    norm_num
  by_cases h4 : b < 1024 ^ 5
  · have hik : i = 4 := spec_index_eq b i 4 hi hmin' (Or.inr (Nat.le_of_not_lt h3)) h4
    subst hik
    rw [hrLoop_step_pow "B" "" ["K", "M", "G", "T", "P"] b 0 h0,
        hrLoop_step_pow "B" "K" ["M", "G", "T", "P"] b 1 h1,
        hrLoop_step_pow "B" "M" ["G", "T", "P"] b 2 h2,
        hrLoop_step_pow "B" "G" ["T", "P"] b 3 h3,
        hrLoop_stop_pow "B" "T" ["P"] b 4 h4]
    norm_num
  by_cases h5 : b < 1024 ^ 6
  · have hik : i = 5 := spec_index_eq b i 5 hi hmin' (Or.inr (Nat.le_of_not_lt h4)) h5
    subst hik
    rw [hrLoop_step_pow "B" "" ["K", "M", "G", "T", "P"] b 0 h0,
        hrLoop_step_pow "B" "K" ["M", "G", "T", "P"] b 1 h1,
        hrLoop_step_pow "B" "M" ["G", "T", "P"] b 2 h2,
        hrLoop_step_pow "B" "G" ["T", "P"] b 3 h3,
        hrLoop_step_pow "B" "T" ["P"] b 4 h4,
        hrLoop_stop_pow "B" "P" [] b 5 h5]
    norm_num
  have hi6 : 6 ≤ i := by
    by_contra hcon
    have hsix : i + 1 ≤ 6 := by omega
    have hle : (1024 : ℕ) ^ (i + 1) ≤ 1024 ^ 6 := Nat.pow_le_pow_right (by norm_num) hsix
    exact h5 (lt_of_lt_of_le hi hle)
  have hmin6 : min i 6 = 6 := by omega
  have hgetD : (["", "K", "M", "G", "T", "P"] : List String).getD i "P" = "P" := by
    apply List.getD_eq_default
    simp only [List.length_cons, List.length_nil]
    omega
  rw [hrLoop_step_pow "B" "" ["K", "M", "G", "T", "P"] b 0 h0,
      hrLoop_step_pow "B" "K" ["M", "G", "T", "P"] b 1 h1,
      hrLoop_step_pow "B" "M" ["G", "T", "P"] b 2 h2,
      hrLoop_step_pow "B" "G" ["T", "P"] b 3 h3,
      hrLoop_step_pow "B" "T" ["P"] b 4 h4,
      hrLoop_step_pow "B" "P" [] b 5 h5,
      hmin6, hgetD]
  simp only [hrLoop]
  rw [show (" P" : String) = " " ++ "P" from rfl, ← String.append_assoc]

/-- Witness for `human_readable_spec` at `b = 0`, `i = 0`. -/
theorem human_readable_spec_witness :
    human_readable ((0 : ℕ) : ℚ) "B"
      = formatFixed1 (((0 : ℕ) : ℚ) / 1024 ^ (min 0 6)) ++ " " ++ hrUnits.getD 0 "P" ++ "B" :=
  human_readable_spec 0 0 (by norm_num) (fun j _ => Nat.zero_le j)

/-- Claim C2, counterexample: at `b = 1024 ^ 7` the smallest index with
`b / 1024 ^ i < 1024` is `i = 7`, the claim's predicted output is
`"1.0 PB"`, but the code renders `"1024.0 PB"`. -/
theorem human_readable_claim_counterexample :
    (((1024 ^ 7 : ℕ) : ℚ) / 1024 ^ 7 < 1024
        ∧ ∀ j : ℕ, ((1024 ^ 7 : ℕ) : ℚ) / 1024 ^ j < 1024 → 7 ≤ j)
      ∧ human_readable ((1024 ^ 7 : ℕ) : ℚ) "B" = "1024.0 PB"
      ∧ formatFixed1 (((1024 ^ 7 : ℕ) : ℚ) / 1024 ^ 7) ++ " " ++ hrUnits.getD 7 "P" ++ "B"
          = "1.0 PB"
      ∧ ("1024.0 PB" : String) ≠ "1.0 PB" := by
  refine ⟨⟨?_, ?_⟩, by with_unfolding_all rfl, by with_unfolding_all rfl, by decide⟩
  · rw [qdiv_pow_lt_iff]
    exact Nat.pow_lt_pow_right (by norm_num) (by norm_num)
  · intro j hj
    rw [qdiv_pow_lt_iff] at hj
    by_contra hcon
    have hj7 : j + 1 ≤ 7 := by omega
    have hle : (1024 : ℕ) ^ (j + 1) ≤ 1024 ^ 7 := Nat.pow_le_pow_right (by norm_num) hj7
    omega

theorem mem_variants_iff (os_name : String) (cpu : CpuData) (mem : MemData)
    (disk : Option DiskData) (net : Option NetData) (show_os : Bool) (p : String × String) :
    p ∈ get_presence_variants os_name cpu mem disk net show_os ↔
      (p = cpu_ram_variant cpu mem (os_suffix_of show_os os_name)
        ∨ (∃ d n, disk = some d ∧ net = some n
            ∧ p = disk_net_variant d n (os_suffix_of show_os os_name))
        ∨ (∃ d, disk = some d ∧ p = cpu_disk_variant cpu d (os_suffix_of show_os os_name))
        ∨ (∃ n, net = some n ∧ p = ram_net_variant mem n (os_suffix_of show_os os_name))
        ∨ (∃ f, cpu.frequency = some f ∧ show_os = true
            ∧ p = freq_variant_pair os_name cpu mem f)
        ∨ ((0 < mem.swap_total.getD 0 ∧ 5 < mem.swap_percent.getD 0)
            ∧ p = swap_variant_pair mem (os_suffix_of show_os os_name))) := by
  rcases disk with _ | d <;> rcases net with _ | n <;>
    rcases hf : cpu.frequency with _ | f <;> cases show_os <;>
    by_cases hs : (0 < mem.swap_total.getD 0 ∧ 5 < mem.swap_percent.getD 0) <;>
    simp [get_presence_variants, hf, hs]

theorem freq_ne_cpu_ram (os_name : String) (cpu : CpuData) (mem mem' : MemData) (f : CpuFreq)
    (so : Bool) :
    freq_variant_pair os_name cpu mem f ≠ cpu_ram_variant cpu mem' (os_suffix_of so os_name) := by
  intro h
  have h1 := congrArg (fun p : String × String => p.1.data) h
  simp only [freq_variant_pair, cpu_ram_variant, string_data_append, List.append_assoc] at h1
  have h2 := List.append_cancel_left h1
  have h3 := List.append_cancel_left h2
  rcases so with _ | _
  · simp only [os_suffix_of, Bool.false_eq_true, if_false] at h3
    simp at h3
  · simp only [os_suffix_of, if_true] at h3
    simp [string_data_append] at h3

/-- Claim C5: for every snapshot, the swap variant is in the candidate pool
iff the snapshot's swap total (read with default 0) is positive and its swap
percent (read with default 0) is strictly greater than 5; in particular at
swap percent exactly 5 it is absent. -/
theorem swap_variant_mem_iff (os_name : String) (cpu : CpuData) (mem : MemData)
    (disk : Option DiskData) (net : Option NetData) (show_os : Bool) :
    swap_variant_pair mem (os_suffix_of show_os os_name)
        ∈ get_presence_variants os_name cpu mem disk net show_os
      ↔ (0 < mem.swap_total.getD 0 ∧ 5 < mem.swap_percent.getD 0) := by
  constructor
  · intro h
    rcases (mem_variants_iff os_name cpu mem disk net show_os _).mp h with
      h1 | ⟨d, n, _, _, h1⟩ | ⟨d, _, h1⟩ | ⟨n, _, h1⟩ | ⟨f, _, _, h1⟩ | ⟨hc, _⟩
    · exact absurd h1
        (pair_ne_of_snd_head (swap_pair_snd_head _ _) (cpu_ram_snd_head _ _ _) (by decide))
    · exact absurd h1
        (pair_ne_of_snd_head (swap_pair_snd_head _ _) (disk_net_snd_head _ _ _) (by decide))
    · exact absurd h1
        (pair_ne_of_snd_head (swap_pair_snd_head _ _) (cpu_disk_snd_head _ _ _) (by decide))
    · exact absurd h1
        (pair_ne_of_snd_head (swap_pair_snd_head _ _) (ram_net_snd_head _ _ _) (by decide))
    · exact absurd h1
        (pair_ne_of_snd_head (swap_pair_snd_head _ _) (freq_pair_snd_head _ _ _ _) (by decide))
    · exact hc
  · intro hc
    exact (mem_variants_iff os_name cpu mem disk net show_os _).mpr
      (Or.inr (Or.inr (Or.inr (Or.inr (Or.inr ⟨hc, rfl⟩)))))

/-- Claim C6: for every snapshot, the frequency-based variant is in the
candidate pool exactly when the `show_os` flag is set and CPU frequency data
is present; with the flag unset it is absent even when frequency data
exists. -/
theorem freq_variant_mem_iff (os_name : String) (cpu : CpuData) (mem : MemData)
    (disk : Option DiskData) (net : Option NetData) (show_os : Bool) :
    (∃ p, freq_variant os_name cpu mem = some p
        ∧ p ∈ get_presence_variants os_name cpu mem disk net show_os)
      ↔ (show_os = true ∧ cpu.frequency.isSome = true) := by
  constructor
  · rintro ⟨p, hp, hmem⟩
    rcases hfo : cpu.frequency with _ | f
    · rw [freq_variant, hfo] at hp
      simp at hp
    · rw [freq_variant, hfo] at hp
      simp only [Option.map_some', Option.some.injEq] at hp
      subst hp
      refine ⟨?_, rfl⟩
      rcases (mem_variants_iff os_name cpu mem disk net show_os _).mp hmem with
        h1 | ⟨d, n, _, _, h1⟩ | ⟨d, _, h1⟩ | ⟨n, _, h1⟩ | ⟨f', _, hso, _⟩ | ⟨_, h1⟩
      · exact absurd h1 (freq_ne_cpu_ram os_name cpu mem mem f show_os)
      · exact absurd h1
          (pair_ne_of_fst_head (freq_pair_fst_head _ _ _ _) (disk_net_fst_head _ _ _) (by decide))
      · exact absurd h1
          (pair_ne_of_snd_head (freq_pair_snd_head _ _ _ _) (cpu_disk_snd_head _ _ _) (by decide))
      · exact absurd h1
          (pair_ne_of_fst_head (freq_pair_fst_head _ _ _ _) (ram_net_fst_head _ _ _) (by decide))
      · exact hso
      · exact absurd h1
          (pair_ne_of_snd_head (freq_pair_snd_head _ _ _ _) (swap_pair_snd_head _ _) (by decide))
  · rintro ⟨hso, hsome⟩
    rcases hfo : cpu.frequency with _ | f
    · rw [hfo] at hsome
      simp at hsome
    · exact ⟨freq_variant_pair os_name cpu mem f, by rw [freq_variant, hfo]; rfl,
        (mem_variants_iff os_name cpu mem disk net show_os _).mpr
          (Or.inr (Or.inr (Or.inr (Or.inr (Or.inl ⟨f, hfo, hso, rfl⟩)))))⟩

/-- Claim C3: with only CPU and memory present (no disk, no net, no
frequency, no swap), the pool is exactly the CPU+RAM pair; adding the disk
facet alone adds exactly the CPU+Disk variant, adding the net facet alone
adds exactly the RAM+Net variant, and adding both adds exactly the
Disk+Net, CPU+Disk and RAM+Net variants, so the pool size grows
monotonically (1, 2, 2, 4) with facet availability. -/
theorem variants_by_facets (os_name : String) (cpu : CpuData) (mem : MemData)
    (d : DiskData) (n : NetData) (show_os : Bool)
    (hf : cpu.frequency = none) (hst : mem.swap_total = none) :
    get_presence_variants os_name cpu mem none none show_os
        = [cpu_ram_variant cpu mem (os_suffix_of show_os os_name)]
    ∧ get_presence_variants os_name cpu mem (some d) none show_os
        = [cpu_ram_variant cpu mem (os_suffix_of show_os os_name),
           cpu_disk_variant cpu d (os_suffix_of show_os os_name)]
    ∧ get_presence_variants os_name cpu mem none (some n) show_os
        = [cpu_ram_variant cpu mem (os_suffix_of show_os os_name),
           ram_net_variant mem n (os_suffix_of show_os os_name)]
    ∧ get_presence_variants os_name cpu mem (some d) (some n) show_os
        = [cpu_ram_variant cpu mem (os_suffix_of show_os os_name),
           disk_net_variant d n (os_suffix_of show_os os_name),
           cpu_disk_variant cpu d (os_suffix_of show_os os_name),
           ram_net_variant mem n (os_suffix_of show_os os_name)] := by
  refine ⟨?_, ?_, ?_, ?_⟩ <;> simp [get_presence_variants, hf, hst]

/-- Witness for `variants_by_facets` at a concrete snapshot. -/
theorem variants_by_facets_witness :
    get_presence_variants "Linux" ⟨50, [], none⟩ ⟨200, 50, 25, 150, none, none, none⟩
          none none false
        = [cpu_ram_variant ⟨50, [], none⟩ ⟨200, 50, 25, 150, none, none, none⟩
            (os_suffix_of false "Linux")]
    ∧ get_presence_variants "Linux" ⟨50, [], none⟩ ⟨200, 50, 25, 150, none, none, none⟩
          (some ⟨10, 20, 1, 2, none, none⟩) none false
        = [cpu_ram_variant ⟨50, [], none⟩ ⟨200, 50, 25, 150, none, none, none⟩
            (os_suffix_of false "Linux"),
           cpu_disk_variant ⟨50, [], none⟩ ⟨10, 20, 1, 2, none, none⟩
            (os_suffix_of false "Linux")]
    ∧ get_presence_variants "Linux" ⟨50, [], none⟩ ⟨200, 50, 25, 150, none, none, none⟩
          none (some ⟨3, 4, 5, 6, 0, 0, 0, 0⟩) false
        = [cpu_ram_variant ⟨50, [], none⟩ ⟨200, 50, 25, 150, none, none, none⟩
            (os_suffix_of false "Linux"),
           ram_net_variant ⟨200, 50, 25, 150, none, none, none⟩ ⟨3, 4, 5, 6, 0, 0, 0, 0⟩
            (os_suffix_of false "Linux")]
    ∧ get_presence_variants "Linux" ⟨50, [], none⟩ ⟨200, 50, 25, 150, none, none, none⟩
          (some ⟨10, 20, 1, 2, none, none⟩) (some ⟨3, 4, 5, 6, 0, 0, 0, 0⟩) false
        = [cpu_ram_variant ⟨50, [], none⟩ ⟨200, 50, 25, 150, none, none, none⟩
            (os_suffix_of false "Linux"),
           disk_net_variant ⟨10, 20, 1, 2, none, none⟩ ⟨3, 4, 5, 6, 0, 0, 0, 0⟩
            (os_suffix_of false "Linux"),
           cpu_disk_variant ⟨50, [], none⟩ ⟨10, 20, 1, 2, none, none⟩
            (os_suffix_of false "Linux"),
           ram_net_variant ⟨200, 50, 25, 150, none, none, none⟩ ⟨3, 4, 5, 6, 0, 0, 0, 0⟩
            (os_suffix_of false "Linux")] :=
  variants_by_facets "Linux" ⟨50, [], none⟩ ⟨200, 50, 25, 150, none, none, none⟩
    ⟨10, 20, 1, 2, none, none⟩ ⟨3, 4, 5, 6, 0, 0, 0, 0⟩ false rfl rfl

/-- Claim C10: whenever CPU and memory data are present — the precondition
under which `update_discord_presence` is called — the candidate pool is
non-empty (the CPU+RAM variant is appended unconditionally), so the
empty-pool early return of the publish routine is unreachable and a payload
is always selected. -/
theorem variants_nonempty (os_name : String) (cpu : CpuData) (mem : MemData)
    (disk : Option DiskData) (net : Option NetData) (show_os : Bool) (choice : ℕ) :
    get_presence_variants os_name cpu mem disk net show_os ≠ []
    ∧ (update_presence_payload os_name cpu mem disk net show_os choice).isSome = true := by
  have hne : get_presence_variants os_name cpu mem disk net show_os ≠ [] := by
    simp [get_presence_variants]
  refine ⟨hne, ?_⟩
  rw [update_presence_payload]
  have hpos : 0 < (get_presence_variants os_name cpu mem disk net show_os).length :=
    List.length_pos.mpr hne
  rw [if_neg (by simpa [List.isEmpty_iff] using hne)]
  have hlt : choice % (get_presence_variants os_name cpu mem disk net show_os).length
      < (get_presence_variants os_name cpu mem disk net show_os).length :=
    Nat.mod_lt _ hpos
  rw [Option.isSome_iff_ne_none]
  intro hnone
  rw [List.get?_eq_none] at hnone
  omega

theorem tick_guard_of_sent (interval : ℚ) (s : LoopState) (inp : TickInput)
    (h : (tick interval s inp).2 = true) : tick_guard interval s inp = true := by
  by_cases hg : tick_guard interval s inp = true
  · exact hg
  · rw [tick, if_neg hg] at h
    simp at h

theorem tick_sent_last (interval : ℚ) (s : LoopState) (inp : TickInput)
    (h : (tick interval s inp).2 = true) :
    (tick interval s inp).1.last_rpc_update_time = inp.time := by
  rw [tick, if_pos (tick_guard_of_sent interval s inp h)]

theorem tick_sent_interval (interval : ℚ) (s : LoopState) (inp : TickInput)
    (h : (tick interval s inp).2 = true) :
    interval ≤ inp.time - s.last_rpc_update_time := by
  have hg := tick_guard_of_sent interval s inp h
  rw [tick_guard] at hg
  simp only [Bool.and_eq_true, decide_eq_true_eq] at hg
  exact hg.1.1.2

theorem chain_runPublishes (interval : ℚ) (inputs : List TickInput) (s : LoopState) :
    List.Chain' (fun a b : ℚ => interval ≤ b - a)
      (s.last_rpc_update_time :: runPublishes interval s inputs) := by
  induction inputs generalizing s with
  | nil => simp [runPublishes]
  | cons inp rest ih =>
    by_cases hg : tick_guard interval s inp = true
    · have ht : tick interval s inp
          = ({ rpc := update_rpc_after_send (s.rpc || inp.connect_ok) inp.send_fails,
               last_rpc_update_time := inp.time }, true) := by
        rw [tick, if_pos hg]
      have hiv : interval ≤ inp.time - s.last_rpc_update_time := by
        have hg' := hg
        rw [tick_guard] at hg'
        simp only [Bool.and_eq_true, decide_eq_true_eq] at hg'
        exact hg'.1.1.2
      simp only [runPublishes, ht, if_true]
      rw [List.chain'_cons]
      exact ⟨hiv, by
        simpa using ih { rpc := update_rpc_after_send (s.rpc || inp.connect_ok) inp.send_fails,
                         last_rpc_update_time := inp.time }⟩
    · have ht : tick interval s inp
          = ({ rpc := s.rpc || inp.connect_ok,
               last_rpc_update_time := s.last_rpc_update_time }, false) := by
        rw [tick, if_neg hg]
      simp only [runPublishes, ht]
      simpa using ih { rpc := s.rpc || inp.connect_ok,
                       last_rpc_update_time := s.last_rpc_update_time }

/-- Claim C1: across any sequence of tick timestamps, consecutive forwarded
publishes are at least the configured interval apart; a publish happens on a
tick only when the tick's time minus the recorded `last_rpc_update_time` is
at least the interval, and the recorded time is then set to the tick's
time. -/
theorem publish_throttle (interval : ℚ) (inputs : List TickInput) (s : LoopState)
    (inp : TickInput) (hsent : (tick interval s inp).2 = true) :
    List.Chain' (fun a b : ℚ => interval ≤ b - a) (runPublishes interval ⟨false, 0⟩ inputs)
    ∧ interval ≤ inp.time - s.last_rpc_update_time
    ∧ (tick interval s inp).1.last_rpc_update_time = inp.time := by
  refine ⟨?_, tick_sent_interval interval s inp hsent, tick_sent_last interval s inp hsent⟩
  exact (chain_runPublishes interval inputs ⟨false, 0⟩).tail

/-- Witness for `publish_throttle`: a connected state at time 0 and a tick
at time 20 with interval 10. -/
theorem publish_throttle_witness :
    List.Chain' (fun a b : ℚ => 10 ≤ b - a) (runPublishes 10 ⟨false, 0⟩ [])
    ∧ (10 : ℚ) ≤ 20 - 0
    ∧ (tick 10 ⟨true, 0⟩ ⟨20, true, true, false, false⟩).1.last_rpc_update_time = 20 :=
  publish_throttle 10 [] ⟨true, 0⟩ ⟨20, true, true, false, false⟩ (by with_unfolding_all rfl)

/-- Claim C4: from a connected state, a send whose update raises leaves the
connection disconnected, and a send can only be forwarded on a following
tick if that tick's reconnect attempt succeeded first. -/
theorem send_failure_disconnects (interval : ℚ) (s : LoopState) (inp inp' : TickInput)
    (_hconn : s.rpc = true) (_hfail : inp.send_fails = true)
    (hsent : (tick interval s inp).2 = true)
    (hsent' : (tick interval (tick interval s inp).1 inp').2 = true) :
    (tick interval s inp).1.rpc = false ∧ inp'.connect_ok = true := by
  have hg := tick_guard_of_sent interval s inp hsent
  have h1 : (tick interval s inp).1.rpc = false := by
    rw [tick, if_pos hg]
    simp [update_rpc_after_send, _hfail]
  refine ⟨h1, ?_⟩
  have hg' := tick_guard_of_sent interval _ inp' hsent'
  rw [tick_guard] at hg'
  simp only [Bool.and_eq_true, Bool.or_eq_true] at hg'
  rcases hg'.1.1.1 with hr | hc
  · rw [h1] at hr
    simp at hr
  · exact hc

/-- Witness for `send_failure_disconnects`: a failing send at time 20, then
a successful reconnect and send at time 31. -/
theorem send_failure_disconnects_witness :
    (tick 10 ⟨true, 0⟩ ⟨20, true, true, false, true⟩).1.rpc = false
    ∧ (⟨31, true, true, true, false⟩ : TickInput).connect_ok = true :=
  send_failure_disconnects 10 ⟨true, 0⟩ ⟨20, true, true, false, true⟩
    ⟨31, true, true, true, false⟩ rfl rfl (by with_unfolding_all rfl)
    (by with_unfolding_all rfl)

/-- Claim C9: when a forwarded send raises, `update_discord_presence`
swallows the exception and `main` still sets `last_rpc_update_time` to the
tick's time, so the first publish of any continuation happens no sooner than
the configured interval after the failed attempt. -/
theorem failed_send_advances_timer (interval : ℚ) (s : LoopState) (inp : TickInput)
    (rest : List TickInput) (t : ℚ) (_hfail : inp.send_fails = true)
    (hsent : (tick interval s inp).2 = true)
    (hhead : (runPublishes interval (tick interval s inp).1 rest).head? = some t) :
    (tick interval s inp).1.last_rpc_update_time = inp.time ∧ interval ≤ t - inp.time := by
  have hlast := tick_sent_last interval s inp hsent
  refine ⟨hlast, ?_⟩
  have hch := chain_runPublishes interval rest (tick interval s inp).1
  rw [hlast, List.chain'_cons'] at hch
  exact hch.1 t (Option.mem_def.mpr hhead)

/-- Witness for `failed_send_advances_timer`: the send at time 20 fails, the
tick at time 25 is throttled (25 - 20 < 10), the next publish is at 31. -/
theorem failed_send_advances_timer_witness :
    (tick 10 ⟨true, 0⟩ ⟨20, true, true, false, true⟩).1.last_rpc_update_time = 20
    ∧ (10 : ℚ) ≤ 31 - 20 :=
  failed_send_advances_timer 10 ⟨true, 0⟩ ⟨20, true, true, false, true⟩
    [⟨25, true, true, true, false⟩, ⟨31, true, true, true, false⟩] 31
    rfl (by with_unfolding_all rfl) (by with_unfolding_all rfl)

/-- Claim C7: for the snapshot with RAM used 4294967296 bytes and RAM total
17179869184 bytes, with the percent field equal to used divided by total (as
a percentage), the rendered RAM line — the subtitle of the CPU+RAM
variant — is exactly `"RAM: 25.0% (4.0 GB/16.0 GB)"`. -/
theorem ram_line_example :
    (cpu_ram_variant ⟨423 / 10, [], none⟩
        ⟨17179869184, 4294967296, 100 * ((4294967296 : ℚ) / 17179869184), 12884901888,
          none, none, none⟩ "").2
      = "RAM: 25.0% (4.0 GB/16.0 GB)" := by
  with_unfolding_all rfl

/-- Claim C8, counterexample: with the metrics library (`psutil`) available
but the presence library (`pypresence`) missing, the process still exits
with status 1 — non-zero without a metrics library being unavailable. -/
theorem exit_status_counterexample : process_exit_status true false = 1 := rfl

/-- Claim C8 (amended): the process exits non-zero — always with status
1 — exactly when a required library (the metrics library `psutil` or the
presence library `pypresence`) is unavailable at startup; in every other
run it exits with status 0. -/
theorem exit_status_amended (psutil_ok pypresence_ok : Bool) :
    (process_exit_status psutil_ok pypresence_ok = 0
        ↔ (psutil_ok && pypresence_ok) = true)
    ∧ (process_exit_status psutil_ok pypresence_ok ≠ 0
        → process_exit_status psutil_ok pypresence_ok = 1) := by
  rcases psutil_ok with _ | _ <;> rcases pypresence_ok with _ | _ <;>
    simp [process_exit_status, check_dependencies]
